import Mathlib

/-!
Verification of the Data-Lens extraction/filtering pipeline.

This file gives a shallow embedding of the core of the repository:
`src/scraper/html_scraper.py` (`HTMLScraper.extract_tables`,
`HTMLScraper.extract_text`, `HTMLScraper.apply_filters`) and
`src/scraper/api_hunter.py` (`APIHunter.fetch_api_data`,
`APIHunter.json_to_dataframe`, `APIHunter.flatten_dict`), together with the
parts of the Python/pandas/BeautifulSoup semantics those functions rely on
(dict insertion order, `str` rendering, DataFrame dtype inference, boolean
masks, `astype(str)` of missing cells, exception-handler dispatch).
Theorems about the behaviour of these functions follow the definitions.
-/

/-- JSON values (also used as DataFrame cell values).  Numbers are modelled
as integers; every value appearing in the scraper pipeline is a string or a
small integer. -/
inductive JSON where
  | null : JSON
  | bool : Bool → JSON
  | num : Int → JSON
  | str : String → JSON
  | arr : List JSON → JSON
  | obj : List (String × JSON) → JSON

/-- A Record: one row, an ordered mapping from column name to value
(Python dict insertion order). -/
abbrev Rec := List (String × JSON)

/-- Lookup in an ordered key/value list (Python `d[k]` / `k in d`;
keys are unique in records built by the pipeline, so first match suffices). -/
def getVal : Rec → String → Option JSON
  | [], _ => none
  | (k2, v) :: t, k => if k2 = k then some v else getVal t k

/-- Python dict assignment `d[k] = v`: overwrites in place when the key
exists (keeping its original position), otherwise appends. -/
def pyDictInsert (d : List (String × JSON)) (kv : String × JSON) :
    List (String × JSON) :=
  if (d.map Prod.fst).contains kv.1 then
    d.map (fun p => if p.1 = kv.1 then (p.1, kv.2) else p)
  else d ++ [kv]

/-- Python `dict(items)`: left-to-right insertion, later values for a key
overwrite earlier ones, position of first insertion is kept. -/
def pyDictOf (l : List (String × JSON)) : List (String × JSON) :=
  l.foldl pyDictInsert []

mutual
/-- Python `repr` of a JSON-shaped value (strings quoted, `True`/`None`
spelling), as produced inside `str` of a list. -/
def pyRepr : JSON → String
  | JSON.null => "None"
  | JSON.bool b => if b then "True" else "False"
  | JSON.num n => toString n
  | JSON.str s => "'" ++ s ++ "'"
  | JSON.arr l => "[" ++ pyReprList l ++ "]"
  | JSON.obj kvs => "\x7b" ++ pyReprObj kvs ++ "\x7d"

def pyReprList : List JSON → String
  | [] => ""
  | [x] => pyRepr x
  | x :: y :: t => pyRepr x ++ ", " ++ pyReprList (y :: t)

def pyReprObj : List (String × JSON) → String
  | [] => ""
  | [(k, v)] => "'" ++ k ++ "': " ++ pyRepr v
  | (k, v) :: y :: t => "'" ++ k ++ "': " ++ pyRepr v ++ ", " ++ pyReprObj (y :: t)
end

/-- Python `str` of a value (differs from `repr` only on strings). -/
def pyStr : JSON → String
  | JSON.str s => s
  | v => pyRepr v

/-- The item sequence accumulated by `APIHunter.flatten_dict` before the
final `dict(items)`: nested dicts are flattened with key paths joined by
`_`, nested lists become their `str` representation
(src/scraper/api_hunter.py lines 155-169). -/
def flattenItems : List (String × JSON) → String → List (String × JSON)
  | [], _ => []
  | (k, v) :: rest, parent_key =>
    let new_key := if parent_key = "" then k else parent_key ++ "_" ++ k
    (match v with
     | JSON.obj kvs => pyDictOf (flattenItems kvs new_key)
     | JSON.arr l => [(new_key, JSON.str (pyRepr (JSON.arr l)))]
     | other => [(new_key, other)]) ++ flattenItems rest parent_key

/-- `APIHunter.flatten_dict(d, parent_key)`: returns `dict(items)`. -/
def flatten_dict (d : List (String × JSON)) (parent_key : String) :
    List (String × JSON) :=
  pyDictOf (flattenItems d parent_key)

/-- A pandas DataFrame, as far as the pipeline observes it: an ordered
column list, the sub-list of columns with `object` dtype (fixed at
construction and preserved by row filtering), and the rows as records. -/
structure DF where
  cols : List String
  objCols : List String
  rows : List Rec

/-- A column has `object` dtype iff it holds at least one genuine string
value; an all-integer column (with or without missing entries) is numeric
(`int64`/`float64`) and is skipped by the string filters. -/
def colIsObj (rows : List Rec) (c : String) : Bool :=
  rows.any (fun r =>
    match getVal r c with
    | some (JSON.str _) => true
    | _ => false)

/-- First-appearance union of the record keys: the column list
`pd.DataFrame(list_of_dicts)` produces. -/
def unionKeys (rows : List Rec) : List String :=
  rows.foldl
    (fun acc r =>
      r.foldl (fun a p => if a.contains p.1 then a else a ++ [p.1]) acc)
    []

/-- `pd.DataFrame(list_of_dicts)`. -/
def mkDF (rows : List Rec) : DF :=
  { cols := unionKeys rows
    objCols := (unionKeys rows).filter (fun c => colIsObj rows c)
    rows := rows }

/-- The envelope-key scan of `APIHunter.json_to_dataframe`
(lines 142-144): first key among `results, items, data, list, records`
present with a list value. -/
def findEnvelopeKey : List String → List (String × JSON) → Option (List JSON)
  | [], _ => none
  | k :: ks, kvs =>
    match getVal kvs k with
    | some (JSON.arr l) => some l
    | _ => findEnvelopeKey ks kvs

/-- The list branch of `json_to_dataframe` (lines 131-137): a list whose
first element is a mapping becomes one record per element
(`pd.DataFrame(data)`); otherwise each element is wrapped as
`{"value": element}` (`pd.DataFrame({'value': data})`).  `pd.DataFrame` on
a list of mappings is modelled for lists of mappings; non-mapping elements
after a mapping first element do not occur in this pipeline and are mapped
to an empty record. -/
def dfOfJSONList (data : List JSON) : DF :=
  let headIsObj : Bool :=
    match data with
    | JSON.obj _ :: _ => true
    | _ => false
  if !data.isEmpty && headIsObj then
    mkDF (data.map (fun e =>
      match e with
      | JSON.obj kvs => pyDictOf kvs
      | _ => []))
  else
    mkDF (data.map (fun e => [("value", e)]))

/-- `APIHunter.json_to_dataframe` (lines 122-153).  In the mapping case the
Python code recursively calls itself on the envelope value, which is
guaranteed to be a list, so that call always lands in the list branch and
is inlined here as `dfOfJSONList`. -/
def json_to_dataframe : JSON → DF
  | JSON.arr data => dfOfJSONList data
  | JSON.obj kvs =>
    match findEnvelopeKey ["results", "items", "data", "list", "records"] kvs with
    | some l => dfOfJSONList l
    | none => mkDF [flatten_dict kvs ""]
  | x => mkDF [[("value", x)]]

/-- A node of the DOM tree BeautifulSoup produces: an element with a tag
name and children, or a navigable string. -/
inductive Node where
  | text : String → Node
  | elem : String → List Node → Node

mutual
/-- `node.find_all(tags)`: all descendant elements (document order, the
node itself excluded) whose tag satisfies the predicate. -/
def findAllN (p : String → Bool) : Node → List Node
  | Node.text _ => []
  | Node.elem _ cs => findAllL p cs

def findAllL (p : String → Bool) : List Node → List Node
  | [] => []
  | n :: rest =>
    (match n with
     | Node.elem t _ => if p t then [n] else []
     | Node.text _ => []) ++ findAllN p n ++ findAllL p rest
end

/-- `node.find(tag)`: first match of `find_all`. -/
def findFirst (p : String → Bool) (n : Node) : Option Node :=
  (findAllN p n).head?

mutual
/-- All descendant strings of a node, document order. -/
def allStringsN : Node → List String
  | Node.text s => [s]
  | Node.elem _ cs => allStringsL cs

def allStringsL : List Node → List String
  | [] => []
  | n :: rest => allStringsN n ++ allStringsL rest
end

/-- Python whitespace (the ASCII characters `str.strip` removes). -/
def isPySpace (c : Char) : Bool :=
  c = ' ' || c = '\t' || c = '\n' || c = '\x0d' || c = '\x0b' || c = '\x0c'

/-- Python `s.strip()`: leading and trailing whitespace removed. -/
def pyStrip (s : String) : String :=
  String.mk (((s.data.dropWhile isPySpace).reverse.dropWhile isPySpace).reverse)

/-- Splitting accumulator for `s.split(',')`. -/
def splitCommaAux : List Char → List Char → List String
  | [], acc => [String.mk acc.reverse]
  | c :: t, acc =>
    if c = ',' then String.mk acc.reverse :: splitCommaAux t []
    else splitCommaAux t (c :: acc)

/-- Python `s.split(',')`: split at every comma, no merging of empties. -/
def pySplitComma (s : String) : List String :=
  splitCommaAux s.data []

/-- `node.get_text(strip=True)`: each descendant string stripped, empty
pieces dropped, remainder concatenated. -/
def get_text (n : Node) : String :=
  String.join (((allStringsN n).map pyStrip).filter (fun s => s ≠ ""))

/-- Python `enumerate(l, start)`. -/
def pyEnum (start : Nat) : List α → List (Nat × α)
  | [] => []
  | a :: as => (start, a) :: pyEnum (start + 1) as

/-- The header resolution of `HTMLScraper.extract_tables`
(src/scraper/html_scraper.py lines 71-82): text of the cells of a
`<thead>` if present, else text of the `<th>` cells of the first row if
any, else no headers. -/
def extract_table_headers (table : Node) : List String :=
  match findFirst (fun t => t = "thead") table with
  | some header_row =>
    (findAllN (fun t => t = "th" || t = "td") header_row).map get_text
  | none =>
    match findFirst (fun t => t = "tr") table with
    | some first_row =>
      let potential_headers := findAllN (fun t => t = "th") first_row
      if !potential_headers.isEmpty then potential_headers.map get_text
      else []
    | none => []

/-- One row's record in `extract_tables` (lines 89-102): the metadata
entries followed by one dict assignment per cell, keyed by the resolved
header (or `column_i` when headers are exhausted or absent). -/
def row_record (table_idx row_idx : Nat) (headers : List String)
    (cells : List Node) : Rec :=
  (pyEnum 0 cells).foldl
    (fun d ic =>
      let col_name :=
        if !headers.isEmpty && ic.1 < headers.length then
          headers.getD ic.1 ""
        else "column_" ++ toString ic.1
      pyDictInsert d (col_name, JSON.str (get_text ic.2)))
    [("type", JSON.str "table"), ("table_index", JSON.num table_idx),
     ("row_index", JSON.num row_idx)]

/-- `HTMLScraper.extract_tables` (lines 65-106): for every `<table>`
(document order), resolve headers, then emit one record per `<tr>` that
contains at least one `<td>`/`<th>` cell — the header row included when it
has cells. -/
def extract_tables (soup : Node) : List Rec :=
  (pyEnum 0 (findAllN (fun t => t = "table") soup)).flatMap
    (fun it =>
      let headers := extract_table_headers it.2
      (pyEnum 0 (findAllN (fun t => t = "tr") it.2)).filterMap
        (fun ir =>
          let cells := findAllN (fun t => t = "td" || t = "th") ir.2
          if !cells.isEmpty then
            some (row_record it.1 ir.1 headers cells)
          else none))

/-- A text record as built by `extract_text` (dict literal field order). -/
def textRec (idx : Nat) (content tag : String) : Rec :=
  [("type", JSON.str "text"), ("index", JSON.num idx),
   ("content", JSON.str content), ("tag", JSON.str tag)]

/-- `HTMLScraper.extract_text` (lines 108-150): paragraphs with non-empty
stripped text (one document-wide `enumerate` counter, empties skipped but
still counted), then each heading level `h1..h6` with its own independent
counter, then divs whose text exceeds 50 characters (again one counter
over all divs). -/
def extract_text (soup : Node) : List Rec :=
  ((pyEnum 0 (findAllN (fun t => t = "p") soup)).filterMap
    (fun ip =>
      let text := get_text ip.2
      if text ≠ "" then some (textRec ip.1 text "p") else none))
  ++
  (["h1", "h2", "h3", "h4", "h5", "h6"].flatMap
    (fun heading_tag =>
      (pyEnum 0 (findAllN (fun t => t = heading_tag) soup)).filterMap
        (fun ih =>
          let text := get_text ih.2
          if text ≠ "" then some (textRec ih.1 text heading_tag) else none)))
  ++
  ((pyEnum 0 (findAllN (fun t => t = "div") soup)).filterMap
    (fun id2 =>
      let text := get_text id2.2
      if text ≠ "" ∧ text.length > 50 then some (textRec id2.1 text "div")
      else none))

/-- Python substring test `needle in hay` on character lists. -/
def hasSubstr (hay needle : List Char) : Bool :=
  if needle.isPrefixOf hay then true
  else
    match hay with
    | [] => false
    | _ :: t => hasSubstr t needle

/-- Case-insensitive substring test, the semantics of
`Series.str.contains(kw, case=False, regex=False)`: both sides are
case-folded and a plain substring search is performed. -/
def containsCI (hay needle : String) : Bool :=
  hasSubstr (hay.data.map Char.toLower) (needle.data.map Char.toLower)

/-- Balanced-parenthesis scan used to decide whether a pattern compiles. -/
def parensOK : List Char → Nat → Bool
  | [], depth => depth = 0
  | c :: t, depth =>
    if c = '(' then parensOK t (depth + 1)
    else if c = ')' then
      match depth with
      | 0 => false
      | d + 1 => parensOK t d
    else parensOK t depth

/-- Search semantics of the compiled pattern with `re.IGNORECASE` (the
`case=False` flag of `Series.str.contains`), for the pattern shapes this
development exercises: parentheses act as transparent grouping, an
optional leading `^` anchors at the start, all other characters are
literal; matching is `search`, i.e. at any position. -/
def reSearch (pattern : String) (s : String) : Bool :=
  let pat := (pattern.data.filter (fun c => c ≠ '(' ∧ c ≠ ')')).map Char.toLower
  let hay := s.data.map Char.toLower
  match pat with
  | '^' :: rest => rest.isPrefixOf hay
  | _ => hasSubstr hay pat

/-- Model of `re.compile` as invoked by `Series.str.contains(...,
regex=True)`: compilation fails (raising `re.error`) exactly on an
unbalanced parenthesis — the only compile failure exercised here — and
otherwise yields the case-insensitive search function. -/
def reCompile (pattern : String) : Option (String → Bool) :=
  if parensOK pattern.data 0 then some (reSearch pattern) else none

/-- `df[col].astype(str)` of one cell: present values are rendered with
Python `str`; a missing cell is the float `NaN`, which `astype(str)`
renders as the literal text `nan`. -/
def cellAstypeStr (r : Rec) (c : String) : String :=
  match getVal r c with
  | some v => pyStr v
  | none => "nan"

/-- The boolean Series `df[col].astype(str).str.contains(...)` for one
column, as a positional mask over the rows. -/
def seriesContains (rows : List Rec) (c : String) (test : String → Bool) :
    List Bool :=
  rows.map (fun r => test (cellAstypeStr r c))

/-- `mask |= series`: pointwise or of two equal-length masks. -/
def maskOr (m1 m2 : List Bool) : List Bool :=
  List.zipWith or m1 m2

/-- `df[mask]`: keep the rows whose mask entry is true. -/
def maskFilter (rows : List Rec) (mask : List Bool) : List Rec :=
  (List.zip rows mask).filterMap (fun p => if p.2 then some p.1 else none)

/-- The keyword mask loop of `HTMLScraper.apply_filters` (lines 204-212):
start from an all-false mask, and for every non-empty keyword or in the
contains-Series of every `object`-dtype column. -/
def kwMask (df : DF) (keywords : List String) : List Bool :=
  keywords.foldl
    (fun mask kw =>
      if kw ≠ "" then
        df.cols.foldl
          (fun m col =>
            if df.objCols.contains col then
              maskOr m (seriesContains df.rows col (fun s => containsCI s kw))
            else m)
          mask
      else mask)
    (List.replicate df.rows.length false)

/-- The regex mask loop (lines 221-227) for a successfully compiled
pattern. -/
def rxMask (df : DF) (m : String → Bool) : List Bool :=
  df.cols.foldl
    (fun msk col =>
      if df.objCols.contains col then
        maskOr msk (seriesContains df.rows col m)
      else msk)
    (List.replicate df.rows.length false)

/-- The scraping configuration fields `apply_filters` reads. -/
structure ScrapeConfig where
  keyword_filter : String
  regex_filter : String

/-- The keyword block of `HTMLScraper.apply_filters` (lines 197-214): when
the stripped `keyword_filter` is non-empty, split it on commas, strip each
segment, build the or-mask, and keep the rows it selects. -/
def keywordStep (df : DF) (config : ScrapeConfig) : DF :=
  let keyword := pyStrip config.keyword_filter
  if keyword ≠ "" then
    let keywords := (pySplitComma keyword).map pyStrip
    { df with rows := maskFilter df.rows (kwMask df keywords) }
  else df

/-- The regex block of `HTMLScraper.apply_filters` (lines 216-231),
returning the resulting frame together with the warnings printed.  The
pattern is compiled only inside the first `str.contains` call, so with no
`object`-dtype column the pattern is never compiled (no `re.error` can
surface) and the all-false initial mask empties the frame; when
compilation fails, `re.error` is caught, the warning is printed and the
frame is left as it was. -/
def regexStep (df : DF) (config : ScrapeConfig) : DF × List String :=
  let regex_pattern := pyStrip config.regex_filter
  if regex_pattern ≠ "" then
    if df.cols.any (fun c => df.objCols.contains c) then
      match reCompile regex_pattern with
      | none => (df, ["Invalid regex pattern"])
      | some m =>
        ({ df with rows := maskFilter df.rows (rxMask df m) }, [])
    else
      ({ df with rows := maskFilter df.rows (List.replicate df.rows.length false) }, [])
  else (df, [])

/-- `HTMLScraper.apply_filters` (lines 192-233): an empty frame is
returned unchanged; otherwise the keyword block runs, then the regex block
runs on its result.  pandas dtypes were fixed when the frame was built and
are preserved by row filtering, so both blocks classify columns by the
frame's recorded dtypes. -/
def apply_filters (df : DF) (config : ScrapeConfig) : DF × List String :=
  if df.rows.isEmpty then (df, [])
  else regexStep (keywordStep df config) config

/-- The Python exceptions that can escape the `try` body of
`APIHunter.fetch_api_data` (src/scraper/api_hunter.py lines 99-110). -/
inductive PyExc where
  | httpError : Nat → PyExc
  | connectionError : String → PyExc
  | jsonDecodeError : String → PyExc

/-- `str(e)` for each exception. -/
def PyExc.message : PyExc → String
  | PyExc.httpError s => "HTTP error " ++ toString s
  | PyExc.connectionError m => m
  | PyExc.jsonDecodeError m => m

/-- Class test for `except requests.RequestException`.  `HTTPError` and
`ConnectionError` subclass `RequestException`; since requests 2.27 the
`requests.exceptions.JSONDecodeError` raised by `response.json()` for an
invalid body subclasses `InvalidJSONError`, hence also
`RequestException` (and, separately, `json.JSONDecodeError`). -/
def PyExc.isRequestException : PyExc → Bool
  | PyExc.httpError _ => true
  | PyExc.connectionError _ => true
  | PyExc.jsonDecodeError _ => true

/-- Class test for `except json.JSONDecodeError`. -/
def PyExc.isJSONDecodeError : PyExc → Bool
  | PyExc.jsonDecodeError _ => true
  | _ => false

/-- The outcome of `requests.get(url, timeout=10)`: a transport failure,
or a response with a status code and a body that either is or is not
valid JSON (the parsed value, or `none` when parsing fails). -/
inductive FetchOutcome where
  | transportError : String → FetchOutcome
  | httpResponse : Nat → Option JSON → FetchOutcome

/-- The `try` body of `fetch_api_data` (lines 100-108): `requests.get`,
`response.raise_for_status()` (which raises `HTTPError` for a 4xx/5xx
status), then `response.json()` (which raises
`requests.exceptions.JSONDecodeError` when the body is not valid JSON). -/
def fetchBody : FetchOutcome → Except PyExc JSON
  | FetchOutcome.transportError m => Except.error (PyExc.connectionError m)
  | FetchOutcome.httpResponse status body =>
    if 400 ≤ status then Except.error (PyExc.httpError status)
    else
      match body with
      | none => Except.error (PyExc.jsonDecodeError "Expecting value")
      | some j => Except.ok j

/-- `APIHunter.fetch_api_data` (lines 89-120): the `try` body followed by
the handler chain, which Python dispatches to the first clause whose
class matches — `except requests.RequestException` first, then
`except json.JSONDecodeError`, then a bare re-raise. -/
def fetch_api_data (o : FetchOutcome) : Except String DF :=
  match fetchBody o with
  | Except.ok data => Except.ok (json_to_dataframe data)
  | Except.error e =>
    if e.isRequestException then
      Except.error ("Failed to fetch API: " ++ e.message)
    else if e.isJSONDecodeError then
      Except.error "Response is not valid JSON"
    else
      Except.error e.message

/-- Row-level reading of the keyword mask loop: a row's mask bit is set
iff some non-empty keyword occurs case-insensitively in the
`astype(str)` text of some `object`-dtype column of that row. -/
def kwRowPred (df : DF) (keywords : List String) (r : Rec) : Bool :=
  keywords.any (fun kw =>
    if kw ≠ "" then
      df.cols.any (fun c =>
        df.objCols.contains c && containsCI (cellAstypeStr r c) kw)
    else false)

/-- Row-level reading of the regex mask loop. -/
def rxRowPred (df : DF) (m : String → Bool) (r : Rec) : Bool :=
  df.cols.any (fun c => df.objCols.contains c && m (cellAstypeStr r c))

theorem maskOr_map (l : List α) (f g : α → Bool) :
    maskOr (l.map f) (l.map g) = l.map (fun a => f a || g a) := by
  induction l with
  | nil => rfl
  | cons a t ih =>
    show (f a || g a) :: maskOr (t.map f) (t.map g) = _
    rw [ih]; rfl

theorem replicate_len_eq_map (l : List α) (b : Bool) :
    List.replicate l.length b = l.map (fun _ => b) := by
  induction l with
  | nil => rfl
  | cons a t ih =>
    show b :: List.replicate t.length b = b :: t.map (fun _ => b)
    rw [ih]

theorem seriesContains_eq (rows : List Rec) (c : String)
    (test : String → Bool) :
    seriesContains rows c test = rows.map (fun r => test (cellAstypeStr r c)) :=
  rfl

theorem foldl_series_or (rows : List Rec) (cols : List String)
    (P : String → Bool) (T : String → String → Bool) (q : Rec → Bool) :
    cols.foldl
      (fun m col =>
        if P col then maskOr m (seriesContains rows col (T col)) else m)
      (rows.map q)
    = rows.map (fun r =>
        q r || cols.any (fun col => P col && T col (cellAstypeStr r col))) := by
  induction cols generalizing q with
  | nil =>
    rw [List.foldl_nil]
    have h : (fun (r : Rec) => q r) = (fun r =>
        q r || List.any [] (fun col => P col && T col (cellAstypeStr r col))) := by
      funext r; simp
    rw [← h]
  | cons c cs ih =>
    rw [List.foldl_cons]
    by_cases h : P c
    · rw [if_pos h, seriesContains_eq, maskOr_map, ih]
      have he : (fun r => (q r || T c (cellAstypeStr r c)) ||
            cs.any (fun col => P col && T col (cellAstypeStr r col)))
          = (fun r => q r ||
            (c :: cs).any (fun col => P col && T col (cellAstypeStr r col))) := by
        funext r; simp [h, Bool.or_assoc]
      rw [he]
    · rw [if_neg h, ih]
      have he : (fun r => q r ||
            cs.any (fun col => P col && T col (cellAstypeStr r col)))
          = (fun r => q r ||
            (c :: cs).any (fun col => P col && T col (cellAstypeStr r col))) := by
        funext r; simp [h]
      rw [he]

theorem rxMask_eq (df : DF) (m : String → Bool) :
    rxMask df m = df.rows.map (rxRowPred df m) := by
  unfold rxMask
  rw [replicate_len_eq_map]
  have step := foldl_series_or df.rows df.cols
    (fun c => df.objCols.contains c) (fun _ s => m s) (fun _ => false)
  rw [step]
  have he : (fun r => false ||
        df.cols.any (fun col => df.objCols.contains col && m (cellAstypeStr r col)))
      = rxRowPred df m := by
    funext r; simp [rxRowPred]
  rw [he]

theorem kwMask_eq (df : DF) (keywords : List String) :
    kwMask df keywords = df.rows.map (kwRowPred df keywords) := by
  unfold kwMask
  rw [replicate_len_eq_map]
  have main : ∀ (kws : List String) (q : Rec → Bool),
      kws.foldl
        (fun mask kw =>
          if kw ≠ "" then
            df.cols.foldl
              (fun m col =>
                if df.objCols.contains col then
                  maskOr m (seriesContains df.rows col (fun s => containsCI s kw))
                else m)
              mask
          else mask)
        (df.rows.map q)
      = df.rows.map (fun r => q r || kwRowPred df kws r) := by
    intro kws
    induction kws with
    | nil =>
      intro q
      rw [List.foldl_nil]
      have he : (fun (r : Rec) => q r) = (fun r => q r || kwRowPred df [] r) := by
        funext r; simp [kwRowPred]
      rw [← he]
    | cons kw rest ih =>
      intro q
      rw [List.foldl_cons]
      by_cases h : kw ≠ ""
      · rw [if_pos h]
        have step := foldl_series_or df.rows df.cols
          (fun c => df.objCols.contains c) (fun _ s => containsCI s kw) q
        rw [step, ih]
        have he : (fun r => (q r ||
              df.cols.any (fun col =>
                df.objCols.contains col && containsCI (cellAstypeStr r col) kw)) ||
              kwRowPred df rest r)
            = (fun r => q r || kwRowPred df (kw :: rest) r) := by
          funext r; simp [kwRowPred, h, Bool.or_assoc]
        rw [he]
      · rw [if_neg h, ih]
        have hkw : kw = "" := not_not.mp h
        have he : (fun r => q r || kwRowPred df rest r)
            = (fun r => q r || kwRowPred df (kw :: rest) r) := by
          funext r; simp [kwRowPred, hkw]
        rw [he]
  have := main keywords (fun _ => false)
  rw [this]
  have he : (fun r => false || kwRowPred df keywords r)
      = kwRowPred df keywords := by
    funext r; simp
  rw [he]

theorem maskFilter_map (rows : List Rec) (p : Rec → Bool) :
    maskFilter rows (rows.map p) = rows.filter p := by
  induction rows with
  | nil => rfl
  | cons r t ih =>
    have ih2 : (List.zip t (t.map p)).filterMap
        (fun pr => if pr.2 then some pr.1 else none) = t.filter p := ih
    show (List.zip (r :: t) (p r :: t.map p)).filterMap
        (fun pr => if pr.2 then some pr.1 else none) = List.filter p (r :: t)
    rw [List.zip_cons_cons, List.filterMap_cons, List.filter_cons]
    by_cases h : p r
    · rw [if_pos h, if_pos h, ih2]
    · rw [if_neg (by simpa using h), if_neg (by simpa using h), ih2]

theorem maskFilter_false (rows : List Rec) :
    maskFilter rows (List.replicate rows.length false) = [] := by
  rw [replicate_len_eq_map, maskFilter_map]
  simp

theorem keywordStep_eq_filter (df : DF) (cfg : ScrapeConfig)
    (hk : pyStrip cfg.keyword_filter ≠ "") :
    keywordStep df cfg =
      { df with rows := df.rows.filter (kwRowPred df ((pySplitComma (pyStrip cfg.keyword_filter)).map pyStrip)) } := by
  simp only [keywordStep]
  rw [if_pos hk, kwMask_eq, maskFilter_map]

theorem keywordStep_skip (df : DF) (cfg : ScrapeConfig)
    (hk : pyStrip cfg.keyword_filter = "") :
    keywordStep df cfg = df := by
  simp only [keywordStep]
  rw [if_neg (by simp [hk])]

theorem regexStep_skip (df : DF) (cfg : ScrapeConfig)
    (hr : pyStrip cfg.regex_filter = "") :
    regexStep df cfg = (df, []) := by
  simp only [regexStep]
  rw [if_neg (by simp [hr])]

theorem regexStep_some (df : DF) (cfg : ScrapeConfig) (m : String → Bool)
    (hr : pyStrip cfg.regex_filter ≠ "")
    (hobj : df.cols.any (fun c => df.objCols.contains c) = true)
    (hc : reCompile (pyStrip cfg.regex_filter) = some m) :
    regexStep df cfg = ({ df with rows := df.rows.filter (rxRowPred df m) }, []) := by
  simp only [regexStep]
  rw [if_pos hr, if_pos hobj, hc]
  have hred :
      (match some m with
       | none => (df, ["Invalid regex pattern"])
       | some mm => ({ df with rows := maskFilter df.rows (rxMask df mm) }, []))
      = ({ df with rows := maskFilter df.rows (rxMask df m) }, []) := rfl
  rw [hred, rxMask_eq, maskFilter_map]

theorem regexStep_invalid (df : DF) (cfg : ScrapeConfig)
    (hr : pyStrip cfg.regex_filter ≠ "")
    (hobj : df.cols.any (fun c => df.objCols.contains c) = true)
    (hc : reCompile (pyStrip cfg.regex_filter) = none) :
    regexStep df cfg = (df, ["Invalid regex pattern"]) := by
  simp only [regexStep]
  rw [if_pos hr, if_pos hobj, hc]

theorem regexStep_noObjCols (df : DF) (cfg : ScrapeConfig)
    (hr : pyStrip cfg.regex_filter ≠ "")
    (hobj : df.cols.any (fun c => df.objCols.contains c) = false) :
    regexStep df cfg = ({ df with rows := [] }, []) := by
  simp only [regexStep]
  rw [if_pos hr, if_neg (by rw [hobj]; simp), maskFilter_false]

theorem keywordStep_cols (df : DF) (cfg : ScrapeConfig) :
    (keywordStep df cfg).cols = df.cols := by
  simp only [keywordStep]
  split <;> rfl

theorem keywordStep_objCols (df : DF) (cfg : ScrapeConfig) :
    (keywordStep df cfg).objCols = df.objCols := by
  simp only [keywordStep]
  split <;> rfl

theorem kwRowPred_false_of_noObj (df : DF) (kws : List String) (r : Rec)
    (hobj : df.cols.any (fun c => df.objCols.contains c) = false) :
    kwRowPred df kws r = false := by
  have hobj2 : ∀ c ∈ df.cols, df.objCols.contains c = false := by
    simpa using List.any_eq_false.mp hobj
  unfold kwRowPred
  rw [List.any_eq_false]
  intro kw hkw
  by_cases h : kw ≠ ""
  · rw [if_pos h]
    intro habs
    obtain ⟨c, hc, hcc⟩ := List.any_eq_true.mp habs
    rw [hobj2 c hc] at hcc
    simp at hcc
  · rw [if_neg h]
    simp

theorem kwRowPred_false_of_all_blank (df : DF) (kws : List String) (r : Rec)
    (hall : ∀ k ∈ kws, k = "") :
    kwRowPred df kws r = false := by
  simp only [kwRowPred, List.any_eq_false]
  intro kw hkw
  rw [if_neg (by simp [hall kw hkw])]
  simp

/-- The two-row Table of the spec's keyword example. -/
def fruitsDF : DF := mkDF [[("x", JSON.str "Apple")], [("x", JSON.str "Banana")]]

/-- A three-row Table used to exercise both filters at once. -/
def fruits3DF : DF :=
  mkDF [[("x", JSON.str "Apple")], [("x", JSON.str "Banana")],
        [("x", JSON.str "apricot")]]

/-- A Table whose only column holds integers, hence no `object` dtype. -/
def numericDF : DF := mkDF [[("n", JSON.num 1)], [("n", JSON.num 2)]]

/-- A Table whose two records have disjoint columns, so each row has a
missing cell in the other row's column. -/
def sparseDF : DF := mkDF [[("x", JSON.str "Apple")], [("y", JSON.str "zz")]]

/-- C8: for every Table, applying the filter stage with an empty
`keyword_filter` string and an empty `regex_filter` string returns the
Table unchanged, row for row and column for column, with no warning —
filtering with empty predicates is the identity function. -/
theorem apply_filters_empty_identity (df : DF) :
    apply_filters df ⟨"", ""⟩ = (df, []) := by
  by_cases h : df.rows.isEmpty
  · simp only [apply_filters]
    rw [if_pos h]
  · simp only [apply_filters]
    rw [if_neg h, keywordStep_skip df _ (by decide), regexStep_skip df _ (by decide)]

/-- C5 (amended): with a non-blank keyword filter and no regex filter, a
row survives `apply_filters` iff the keyword row predicate holds: some
non-empty comma-segment of the filter is a case-insensitive substring of
the `astype(str)` text of some `object`-dtype column of the row — where a
cell the row is missing reads as the literal text `nan`.  No warning is
printed. -/
theorem apply_filters_keyword_semantics (df : DF) (kwstr : String)
    (hk : pyStrip kwstr ≠ "") :
    (apply_filters df ⟨kwstr, ""⟩).1.rows
      = df.rows.filter (kwRowPred df ((pySplitComma (pyStrip kwstr)).map pyStrip))
    ∧ (apply_filters df ⟨kwstr, ""⟩).2 = [] := by
  by_cases he : df.rows.isEmpty
  · have hnil : df.rows = [] := List.isEmpty_iff.mp he
    simp only [apply_filters]
    rw [if_pos he]
    exact ⟨by rw [hnil]; rfl, rfl⟩
  · have hr : pyStrip (ScrapeConfig.mk kwstr "").regex_filter = "" := rfl
    simp only [apply_filters]
    rw [if_neg he, keywordStep_eq_filter df _ hk, regexStep_skip _ _ hr]
    exact ⟨rfl, rfl⟩

/-- Witness for `apply_filters_keyword_semantics`: the spec's own example —
rows `Apple`, `Banana` with `keyword_filter="apple"` keep exactly the
`Apple` row. -/
theorem apply_filters_keyword_semantics_witness :
    (pyStrip "apple" ≠ "") ∧
    ((apply_filters fruitsDF ⟨"apple", ""⟩).1.rows
        = fruitsDF.rows.filter
            (kwRowPred fruitsDF ((pySplitComma (pyStrip "apple")).map pyStrip))
      ∧ (apply_filters fruitsDF ⟨"apple", ""⟩).2 = []) ∧
    (apply_filters fruitsDF ⟨"apple", ""⟩).1.rows = [[("x", JSON.str "Apple")]] :=
  ⟨by decide, apply_filters_keyword_semantics fruitsDF "apple" (by decide), rfl⟩

/-- The keyword criterion exactly as the claim words it: some non-empty
keyword is a case-insensitive substring of an actual string value present
in the row. -/
def kwRowPredClaim (keywords : List String) (r : Rec) : Bool :=
  keywords.any (fun kw =>
    if kw ≠ "" then
      r.any (fun p =>
        match p.2 with
        | JSON.str s => containsCI s kw
        | _ => false)
    else false)

/-- C5 counterexample: on the Table `[{x:"Apple"}, {y:"zz"}]` with
`keyword_filter="nan"`, no actual string value contains `nan`, yet both
rows are kept, because each row's missing cell is rendered `nan` by
`astype(str)` and searched — refuting the claimed "if and only if". -/
theorem apply_filters_keyword_nan_counterexample :
    (apply_filters sparseDF ⟨"nan", ""⟩).1.rows = sparseDF.rows
    ∧ sparseDF.rows.length = 2
    ∧ sparseDF.rows.all (fun r => !(kwRowPredClaim ["nan"] r)) = true :=
  ⟨rfl, rfl, rfl⟩

/-- C3 (amended): when the stripped keyword filter is non-blank but every
comma-segment strips to empty (e.g. `","`), the mask is never set and the
keyword filter excludes every row, leaving an empty Table. -/
theorem apply_filters_all_blank_keywords (df : DF) (kwstr : String)
    (hk : pyStrip kwstr ≠ "")
    (hall : ∀ k ∈ (pySplitComma (pyStrip kwstr)).map pyStrip, k = "") :
    (apply_filters df ⟨kwstr, ""⟩).1.rows = [] := by
  rcases apply_filters_keyword_semantics df kwstr hk with ⟨h1, _⟩
  rw [h1, List.filter_eq_nil_iff]
  intro r _
  simp [kwRowPred_false_of_all_blank df _ r hall]

/-- Witness for `apply_filters_all_blank_keywords` at `keyword_filter=","`
on a two-row Table. -/
theorem apply_filters_all_blank_keywords_witness :
    (pyStrip "," ≠ "" ∧ ∀ k ∈ (pySplitComma (pyStrip ",")).map pyStrip, k = "") ∧
    (apply_filters fruitsDF ⟨",", ""⟩).1.rows = [] :=
  ⟨⟨by decide, by decide⟩,
   apply_filters_all_blank_keywords fruitsDF "," (by decide) (by decide)⟩

/-- C3 counterexample: with `keyword_filter=","` (all comma-segments strip
to empty) on a non-empty Table, the keyword filter is not skipped — it
excludes both rows instead of none. -/
theorem apply_filters_comma_counterexample :
    (apply_filters fruitsDF ⟨",", ""⟩).1.rows = [] ∧ fruitsDF.rows.length = 2 :=
  ⟨rfl, rfl⟩

/-- C2: whenever both filters are configured (non-blank after stripping)
and the regex compiles, a row of any Table survives `apply_filters` iff it
satisfies the keyword predicate AND the regex predicate: the result equals
the full row set filtered by the conjunction of the two row predicates
(the two boolean masks intersected), and no warning is raised — the
combined filtering never raises for the caller. -/
theorem apply_filters_conjunctive (df : DF) (cfg : ScrapeConfig)
    (m : String → Bool)
    (hk : pyStrip cfg.keyword_filter ≠ "")
    (hr : pyStrip cfg.regex_filter ≠ "")
    (hc : reCompile (pyStrip cfg.regex_filter) = some m) :
    (apply_filters df cfg).1.rows
      = df.rows.filter (fun r =>
          kwRowPred df ((pySplitComma (pyStrip cfg.keyword_filter)).map pyStrip) r
          && rxRowPred df m r)
    ∧ (apply_filters df cfg).2 = [] := by
  by_cases he : df.rows.isEmpty
  · have hnil : df.rows = [] := List.isEmpty_iff.mp he
    simp only [apply_filters]
    rw [if_pos he]
    exact ⟨by rw [hnil]; rfl, rfl⟩
  · simp only [apply_filters]
    rw [if_neg he, keywordStep_eq_filter df cfg hk]
    by_cases hobj : df.cols.any (fun c => df.objCols.contains c) = true
    · have hsome := regexStep_some
        { cols := df.cols, objCols := df.objCols,
          rows := df.rows.filter (kwRowPred df ((pySplitComma (pyStrip cfg.keyword_filter)).map pyStrip)) }
        cfg m hr hobj hc
      rw [hsome]
      constructor
      · show (df.rows.filter _).filter _ = _
        rw [List.filter_filter]
        exact List.filter_congr (fun r _ => Bool.and_comm _ _)
      · rfl
    · have hobjf : df.cols.any (fun c => df.objCols.contains c) = false := by
        revert hobj
        cases df.cols.any (fun c => df.objCols.contains c) <;> simp
      have hnone := regexStep_noObjCols
        { cols := df.cols, objCols := df.objCols,
          rows := df.rows.filter (kwRowPred df ((pySplitComma (pyStrip cfg.keyword_filter)).map pyStrip)) }
        cfg hr hobjf
      rw [hnone]
      constructor
      · show ([] : List Rec) = _
        symm
        rw [List.filter_eq_nil_iff]
        intro r _
        rw [kwRowPred_false_of_noObj df _ r hobjf]
        simp
      · rfl

/-- Witness for `apply_filters_conjunctive`: keywords `ap` and regex `^a`
on rows `Apple`, `Banana`, `apricot` keep exactly `Apple` and `apricot`. -/
theorem apply_filters_conjunctive_witness :
    (pyStrip "ap" ≠ "" ∧ pyStrip "^a" ≠ ""
      ∧ reCompile (pyStrip "^a") = some (reSearch "^a")) ∧
    ((apply_filters fruits3DF ⟨"ap", "^a"⟩).1.rows
        = fruits3DF.rows.filter (fun r =>
            kwRowPred fruits3DF ((pySplitComma (pyStrip "ap")).map pyStrip) r
            && rxRowPred fruits3DF (reSearch "^a") r)
      ∧ (apply_filters fruits3DF ⟨"ap", "^a"⟩).2 = []) ∧
    (apply_filters fruits3DF ⟨"ap", "^a"⟩).1.rows
      = [[("x", JSON.str "Apple")], [("x", JSON.str "apricot")]] :=
  ⟨⟨by decide, by decide, rfl⟩,
   apply_filters_conjunctive fruits3DF ⟨"ap", "^a"⟩ (reSearch "^a")
     (by decide) (by decide) rfl,
   rfl⟩

/-- C7 (amended): for a Table with at least one `object`-dtype column, a
regex filter that does not compile leaves the frame exactly as the
keyword-only run leaves it (rows pass through unfiltered by regex) and the
invalid-pattern warning is reported; without any `object`-dtype column the
pattern is never compiled (see the counterexample). -/
theorem apply_filters_invalid_regex (df : DF) (cfg : ScrapeConfig)
    (hobj : df.cols.any (fun c => df.objCols.contains c) = true)
    (hc : reCompile (pyStrip cfg.regex_filter) = none)
    (hne : df.rows.isEmpty = false) :
    (apply_filters df cfg).1
      = (apply_filters df ⟨cfg.keyword_filter, ""⟩).1
    ∧ (apply_filters df cfg).2 = ["Invalid regex pattern"] := by
  have hr : pyStrip cfg.regex_filter ≠ "" := by
    intro h
    rw [h] at hc
    have h2 : reCompile "" = some (reSearch "") := rfl
    rw [h2] at hc
    exact Option.noConfusion hc
  have hobj1 : (keywordStep df cfg).cols.any
      (fun c => (keywordStep df cfg).objCols.contains c) = true := by
    rw [keywordStep_cols, keywordStep_objCols]
    exact hobj
  have heq : keywordStep df (ScrapeConfig.mk cfg.keyword_filter "")
      = keywordStep df cfg := rfl
  have hr0 : pyStrip (ScrapeConfig.mk cfg.keyword_filter "").regex_filter = "" := rfl
  simp only [apply_filters]
  rw [if_neg (by simp [hne]), if_neg (by simp [hne])]
  rw [regexStep_invalid (keywordStep df cfg) cfg hr hobj1 hc]
  rw [regexStep_skip _ _ hr0, heq]
  exact ⟨rfl, rfl⟩

/-- Witness for `apply_filters_invalid_regex`: the unbalanced pattern `(`
on the string Table leaves both rows and prints the warning. -/
theorem apply_filters_invalid_regex_witness :
    (fruitsDF.cols.any (fun c => fruitsDF.objCols.contains c) = true
      ∧ reCompile (pyStrip "(") = none
      ∧ fruitsDF.rows.isEmpty = false) ∧
    ((apply_filters fruitsDF ⟨"", "("⟩).1
        = (apply_filters fruitsDF ⟨"", ""⟩).1
      ∧ (apply_filters fruitsDF ⟨"", "("⟩).2 = ["Invalid regex pattern"]) ∧
    (apply_filters fruitsDF ⟨"", "("⟩).1.rows = fruitsDF.rows :=
  ⟨⟨rfl, rfl, rfl⟩,
   apply_filters_invalid_regex fruitsDF ⟨"", "("⟩ rfl rfl rfl,
   rfl⟩

/-- C7 counterexample: on a non-empty Table with no string-typed column
(`numericDF`), the invalid pattern `(` is never compiled — `str.contains`
is never reached — so no warning is reported, and the all-false mask drops
every row instead of letting rows pass through. -/
theorem apply_filters_invalid_regex_numeric_counterexample :
    (apply_filters numericDF ⟨"", "("⟩).1.rows = []
    ∧ (apply_filters numericDF ⟨"", "("⟩).2 = []
    ∧ numericDF.rows.length = 2
    ∧ reCompile "(" = none :=
  ⟨rfl, rfl, rfl, rfl⟩

/-- C4 evaluated at the failing input: a 200 response whose body is not
valid JSON raises `requests.exceptions.JSONDecodeError`, which subclasses
`RequestException` (requests 2.27+), so the first handler catches it and
the caller sees the fetch-error message — not the distinct decode message
`Response is not valid JSON` that the dead second handler would produce.
Transport failures and 4xx statuses produce the same fetch-error shape;
no failure yields an `ok` Table. -/
theorem fetch_api_data_decode_shadowed :
    fetch_api_data (FetchOutcome.httpResponse 200 none)
      = Except.error ("Failed to fetch API: " ++ "Expecting value")
    ∧ fetch_api_data (FetchOutcome.transportError "connection refused")
      = Except.error ("Failed to fetch API: " ++ "connection refused")
    ∧ fetch_api_data (FetchOutcome.httpResponse 404 (some JSON.null))
      = Except.error ("Failed to fetch API: " ++ "HTTP error 404")
    ∧ ("Failed to fetch API: " ++ "Expecting value")
        ≠ "Response is not valid JSON" :=
  ⟨rfl, rfl, rfl, by decide⟩

/-- C6: `json_to_dataframe` follows the documented normalization — the
`results` envelope is unwrapped into one record per element (2 rows,
column `a`, values 1 and 2); an object with no list-valued envelope key is
flattened into a single row with `_`-joined key paths (`a_b = 1`); a list
of scalars becomes a 3-row one-column `value` table; the envelope keys are
tried in the fixed priority order (`results` wins over an
earlier-occurring `items`); and an envelope key bound to a non-list value
is skipped in favour of the next key. -/
theorem json_to_dataframe_normalization :
    json_to_dataframe (JSON.obj [("results",
        JSON.arr [JSON.obj [("a", JSON.num 1)], JSON.obj [("a", JSON.num 2)]])])
      = DF.mk ["a"] [] [[("a", JSON.num 1)], [("a", JSON.num 2)]]
    ∧ json_to_dataframe (JSON.obj [("a", JSON.obj [("b", JSON.num 1)])])
      = DF.mk ["a_b"] [] [[("a_b", JSON.num 1)]]
    ∧ json_to_dataframe (JSON.arr [JSON.num 1, JSON.num 2, JSON.num 3])
      = DF.mk ["value"] []
          [[("value", JSON.num 1)], [("value", JSON.num 2)], [("value", JSON.num 3)]]
    ∧ json_to_dataframe (JSON.obj
        [("items", JSON.arr [JSON.obj [("i", JSON.num 1)]]),
         ("results", JSON.arr [JSON.obj [("r", JSON.num 2)]])])
      = DF.mk ["r"] [] [[("r", JSON.num 2)]]
    ∧ json_to_dataframe (JSON.obj
        [("results", JSON.num 5),
         ("items", JSON.arr [JSON.obj [("i", JSON.num 7)]])])
      = DF.mk ["i"] [] [[("i", JSON.num 7)]] := by
  refine ⟨rfl, ?_, rfl, rfl, rfl⟩
  show mkDF [flatten_dict [("a", JSON.obj [("b", JSON.num 1)])] ""]
      = DF.mk ["a_b"] [] [[("a_b", JSON.num 1)]]
  have h1 : flatten_dict [("a", JSON.obj [("b", JSON.num 1)])] ""
      = [("a_b", JSON.num 1)] := by
    unfold flatten_dict
    simp only [flattenItems]
    rfl
  rw [h1]
  rfl

/-- The DOM of the spec's end-to-end example:
`<table><tr><th>Name</th><th>Age</th></tr><tr><td>Al</td><td>30</td></tr></table>`. -/
def specTableDoc : Node :=
  Node.elem "[document]"
    [Node.elem "table"
      [Node.elem "tr" [Node.elem "th" [Node.text "Name"], Node.elem "th" [Node.text "Age"]],
       Node.elem "tr" [Node.elem "td" [Node.text "Al"], Node.elem "td" [Node.text "30"]]]]

/-- Number of `<tr>` rows holding at least one `<td>`/`<th>` cell, summed
over all `<table>` elements of the document. -/
def tableRowCount (soup : Node) : Nat :=
  ((findAllN (fun t => t = "table") soup).map
    (fun tb =>
      ((findAllN (fun t => t = "tr") tb).filter
        (fun row => !(findAllN (fun t => t = "td" || t = "th") row).isEmpty)).length)).sum

theorem extract_tables_rows_aux (headers : List String) (tIdx : Nat) :
    ∀ (rs : List Node) (start : Nat),
    ((pyEnum start rs).filterMap
      (fun ir =>
        let cells := findAllN (fun t => t = "td" || t = "th") ir.2
        if !cells.isEmpty then some (row_record tIdx ir.1 headers cells)
        else none)).length
    = (rs.filter
        (fun row => !(findAllN (fun t => t = "td" || t = "th") row).isEmpty)).length := by
  intro rs
  induction rs with
  | nil => intro start; rfl
  | cons r t ih =>
    intro start
    simp only [pyEnum, List.filterMap_cons, List.filter_cons]
    by_cases h : (findAllN (fun t => t = "td" || t = "th") r).isEmpty
    · simp [h, ih (start + 1)]
    · simp [h, ih (start + 1)]

theorem extract_tables_tables_aux :
    ∀ (tbs : List Node) (start : Nat),
    ((pyEnum start tbs).flatMap
      (fun it =>
        let headers := extract_table_headers it.2
        (pyEnum 0 (findAllN (fun t => t = "tr") it.2)).filterMap
          (fun ir =>
            let cells := findAllN (fun t => t = "td" || t = "th") ir.2
            if !cells.isEmpty then some (row_record it.1 ir.1 headers cells)
            else none))).length
    = (tbs.map (fun tb =>
        ((findAllN (fun t => t = "tr") tb).filter
          (fun row => !(findAllN (fun t => t = "td" || t = "th") row).isEmpty)).length)).sum := by
  intro tbs
  induction tbs with
  | nil => intro start; rfl
  | cons tb rest ih =>
    intro start
    simp only [pyEnum, List.flatMap_cons, List.length_append, List.map_cons,
      List.sum_cons]
    rw [extract_tables_rows_aux (extract_table_headers tb) start
      (findAllN (fun t => t = "tr") tb) 0, ih (start + 1)]

/-- C1 (amended): table extraction emits one record per `<tr>` that holds
at least one `<td>`/`<th>` cell — header rows included.  For every
document the number of emitted records equals that row count, and on the
spec's end-to-end example the result is two records: the header row is
re-emitted as a data record with `row_index` 0 (its cells echoing the
header texts), followed by the data row with `row_index` 1. -/
theorem extract_tables_emits_all_cell_rows (d : Node) :
    (extract_tables d).length = tableRowCount d
    ∧ extract_tables specTableDoc
      = [[("type", JSON.str "table"), ("table_index", JSON.num 0),
          ("row_index", JSON.num 0), ("Name", JSON.str "Name"),
          ("Age", JSON.str "Age")],
         [("type", JSON.str "table"), ("table_index", JSON.num 0),
          ("row_index", JSON.num 1), ("Name", JSON.str "Al"),
          ("Age", JSON.str "30")]] :=
  ⟨extract_tables_tables_aux (findAllN (fun t => t = "table") d) 0, rfl⟩

/-- C1 counterexample: on the spec example the extraction yields two
records, not the claimed single record — the `<th>` header row is consumed
as headers AND re-emitted as a data record. -/
theorem extract_tables_header_row_reemitted :
    (extract_tables specTableDoc).length = 2
    ∧ (extract_tables specTableDoc).length ≠ 1 :=
  ⟨rfl, by decide⟩

theorem getVal_replace_other (d : Rec) (k2 : String) (v : JSON) (k : String)
    (hne : k2 ≠ k) :
    getVal (d.map (fun p => if p.1 = k2 then (p.1, v) else p)) k = getVal d k := by
  induction d with
  | nil => rfl
  | cons p t ih =>
    obtain ⟨k1, v1⟩ := p
    rw [List.map_cons]
    by_cases h1 : k1 = k2
    · rw [if_pos h1]
      show (if k1 = k then some v else _) = (if k1 = k then some v1 else _)
      have h2 : k1 ≠ k := by rw [h1]; exact hne
      rw [if_neg h2, if_neg h2]
      exact ih
    · rw [if_neg h1]
      show (if k1 = k then some v1 else _) = (if k1 = k then some v1 else _)
      by_cases h2 : k1 = k
      · rw [if_pos h2, if_pos h2]
      · rw [if_neg h2, if_neg h2]
        exact ih

theorem getVal_replace_of_contains (d : Rec) (k2 : String) (v : JSON)
    (hc : (d.map Prod.fst).contains k2 = true) (k : String) :
    getVal (d.map (fun p => if p.1 = k2 then (p.1, v) else p)) k
    = if k2 = k then some v else getVal d k := by
  induction d with
  | nil => simp at hc
  | cons p t ih =>
    obtain ⟨k1, v1⟩ := p
    rw [List.map_cons]
    by_cases h1 : k1 = k2
    · rw [if_pos h1]
      by_cases h2 : k1 = k
      · show (if k1 = k then some v else _) = _
        rw [if_pos h2]
        have : k2 = k := by rw [← h1]; exact h2
        rw [if_pos this]
      · show (if k1 = k then some v else _) = _
        rw [if_neg h2]
        have h3 : k2 ≠ k := by rw [← h1]; exact h2
        rw [if_neg h3]
        show _ = getVal ((k1, v1) :: t) k
        have h4 : getVal ((k1, v1) :: t) k = getVal t k := by
          show (if k1 = k then some v1 else getVal t k) = getVal t k
          rw [if_neg h2]
        rw [h4]
        exact getVal_replace_other t k2 v k h3
    · rw [if_neg h1]
      have hc2 : (t.map Prod.fst).contains k2 = true := by
        have h5 : k2 ≠ k1 := fun h => h1 h.symm
        rw [List.map_cons, List.contains_cons] at hc
        simpa [h5] using hc
      show (if k1 = k then some v1 else _) = _
      by_cases h2 : k1 = k
      · rw [if_pos h2]
        have h3 : k2 ≠ k := by
          intro h4
          exact h1 (by rw [h2, h4])
        rw [if_neg h3]
        show _ = getVal ((k1, v1) :: t) k
        have h6 : getVal ((k1, v1) :: t) k = some v1 := by
          show (if k1 = k then some v1 else getVal t k) = some v1
          rw [if_pos h2]
        rw [h6]
      · rw [if_neg h2, ih hc2]
        have h7 : getVal ((k1, v1) :: t) k = getVal t k := by
          show (if k1 = k then some v1 else getVal t k) = getVal t k
          rw [if_neg h2]
        rw [h7]

theorem getVal_insert_append (d : Rec) (k2 : String) (v : JSON)
    (hc : (d.map Prod.fst).contains k2 = false) (k : String) :
    getVal (d ++ [(k2, v)]) k = if k2 = k then some v else getVal d k := by
  induction d with
  | nil => rfl
  | cons p t ih =>
    obtain ⟨k1, v1⟩ := p
    have h1 : k1 ≠ k2 := by
      intro h
      rw [List.map_cons, List.contains_cons] at hc
      simp [h] at hc
    have hc2 : (t.map Prod.fst).contains k2 = false := by
      rw [List.map_cons, List.contains_cons] at hc
      simpa using (Bool.or_eq_false_iff.mp hc).2
    rw [List.cons_append]
    show (if k1 = k then some v1 else getVal (t ++ [(k2, v)]) k) = _
    by_cases h2 : k1 = k
    · rw [if_pos h2]
      have h3 : k2 ≠ k := by
        intro h4
        exact h1 (by rw [h2, h4])
      rw [if_neg h3]
      show _ = getVal ((k1, v1) :: t) k
      show _ = (if k1 = k then some v1 else getVal t k)
      rw [if_pos h2]
    · rw [if_neg h2, ih hc2]
      have h7 : getVal ((k1, v1) :: t) k = getVal t k := by
        show (if k1 = k then some v1 else getVal t k) = getVal t k
        rw [if_neg h2]
      rw [h7]

/-- Python dict assignment, observed through lookup: the inserted value
wins for its key, everything else is untouched. -/
theorem getVal_pyDictInsert (d : Rec) (k2 : String) (v : JSON) (k : String) :
    getVal (pyDictInsert d (k2, v)) k = if k2 = k then some v else getVal d k := by
  unfold pyDictInsert
  by_cases hc : (d.map Prod.fst).contains k2 = true
  · rw [if_pos (by simpa using hc)]
    exact getVal_replace_of_contains d k2 v hc k
  · have hcf : (d.map Prod.fst).contains k2 = false := by
      revert hc
      cases (d.map Prod.fst).contains k2 <;> simp
    rw [if_neg (by rw [hcf]; simp)]
    exact getVal_insert_append d k2 v hcf k

theorem getVal_append_of_some (a b : Rec) (k : String) (v : JSON)
    (h : getVal a k = some v) : getVal (a ++ b) k = some v := by
  induction a with
  | nil => exact absurd h (by simp [getVal])
  | cons p t ih =>
    obtain ⟨k1, v1⟩ := p
    have h3 : (if k1 = k then some v1 else getVal t k) = some v := h
    rw [List.cons_append]
    show (if k1 = k then some v1 else getVal (t ++ b) k) = some v
    by_cases h2 : k1 = k
    · rw [if_pos h2] at h3 ⊢
      exact h3
    · rw [if_neg h2] at h3
      rw [if_neg h2]
      exact ih h3

theorem getVal_append_of_none (a b : Rec) (k : String)
    (h : getVal a k = none) : getVal (a ++ b) k = getVal b k := by
  induction a with
  | nil => rfl
  | cons p t ih =>
    obtain ⟨k1, v1⟩ := p
    have h3 : (if k1 = k then some v1 else getVal t k) = none := h
    rw [List.cons_append]
    show (if k1 = k then some v1 else getVal (t ++ b) k) = getVal b k
    by_cases h2 : k1 = k
    · rw [if_pos h2] at h3
      exact absurd h3 (by simp)
    · rw [if_neg h2] at h3
      rw [if_neg h2]
      exact ih h3

/-- Folding Python dict assignments: a key's final value is the value of
the LAST assignment with that key (lookup in the reversed assignment
sequence), falling back to the initial dict. -/
theorem getVal_foldl_pyDictInsert (l : List (String × JSON)) :
    ∀ (d : Rec) (k : String),
    getVal (l.foldl pyDictInsert d) k
    = match getVal l.reverse k with
      | some v => some v
      | none => getVal d k := by
  induction l with
  | nil => intro d k; rfl
  | cons x xs ih =>
    intro d k
    obtain ⟨k2, v⟩ := x
    rw [List.foldl_cons, ih (pyDictInsert d (k2, v)) k, List.reverse_cons]
    cases hga : getVal xs.reverse k with
    | some v2 =>
      rw [getVal_append_of_some xs.reverse [(k2, v)] k v2 hga]
    | none =>
      rw [getVal_append_of_none xs.reverse [(k2, v)] k hga,
        getVal_pyDictInsert d k2 v k]
      by_cases h2 : k2 = k
      · have hx : getVal [(k2, v)] k = some v := by
          show (if k2 = k then some v else getVal [] k) = some v
          rw [if_pos h2]
        rw [hx, if_pos h2]
      · have hx : getVal [(k2, v)] k = none := by
          show (if k2 = k then some v else getVal [] k) = none
          rw [if_neg h2]
          rfl
        rw [hx, if_neg h2]

/-- The assignment sequence performed while building one row's record in
`extract_tables`: the three metadata entries first, then one entry per
cell under its resolved column name. -/
def rowAssignments (table_idx row_idx : Nat) (headers : List String)
    (cells : List Node) : List (String × JSON) :=
  [("type", JSON.str "table"), ("table_index", JSON.num table_idx),
   ("row_index", JSON.num row_idx)]
  ++ (pyEnum 0 cells).map (fun ic =>
      (if !headers.isEmpty && ic.1 < headers.length then headers.getD ic.1 ""
       else "column_" ++ toString ic.1,
       JSON.str (get_text ic.2)))

theorem baseMeta_lookup_reverse (a b c : JSON) (k : String) :
    getVal [("type", a), ("table_index", b), ("row_index", c)] k
    = getVal [("row_index", c), ("table_index", b), ("type", a)] k := by
  by_cases h1 : "type" = k
  · subst h1
    rfl
  · by_cases h2 : "table_index" = k
    · subst h2
      rfl
    · by_cases h3 : "row_index" = k
      · subst h3
        rfl
      · simp [getVal, h1, h2, h3]

theorem row_record_lookup (table_idx row_idx : Nat) (headers : List String)
    (cells : List Node) (k : String) :
    getVal (row_record table_idx row_idx headers cells) k
    = getVal (rowAssignments table_idx row_idx headers cells).reverse k := by
  have hfold :
      row_record table_idx row_idx headers cells
      = ((pyEnum 0 cells).map (fun ic =>
          (if !headers.isEmpty && ic.1 < headers.length then headers.getD ic.1 ""
           else "column_" ++ toString ic.1,
           JSON.str (get_text ic.2)))).foldl pyDictInsert
          [("type", JSON.str "table"), ("table_index", JSON.num table_idx),
           ("row_index", JSON.num row_idx)] := by
    rw [List.foldl_map]
    rfl
  rw [hfold, getVal_foldl_pyDictInsert _ _ k]
  unfold rowAssignments
  rw [List.reverse_append]
  cases hga : getVal ((pyEnum 0 cells).map (fun ic =>
      (if !headers.isEmpty && ic.1 < headers.length then headers.getD ic.1 ""
       else "column_" ++ toString ic.1,
       JSON.str (get_text ic.2)))).reverse k with
  | some v =>
    rw [getVal_append_of_some _ _ k v hga]
  | none =>
    rw [getVal_append_of_none _ _ k hga]
    exact baseMeta_lookup_reverse _ _ _ k

/-- A table whose first-row `<th>` headers are both the literal text
`type`, colliding with each other and with the metadata column. -/
def dupHeaderDoc : Node :=
  Node.elem "[document]"
    [Node.elem "table"
      [Node.elem "tr" [Node.elem "th" [Node.text "type"],
                       Node.elem "th" [Node.text "type"]],
       Node.elem "tr" [Node.elem "td" [Node.text "x"],
                       Node.elem "td" [Node.text "y"]]]]

/-- C9: within one extracted row, later cells overwrite earlier entries
that resolve to the same column name.  In general a key's looked-up value
in the emitted record equals its value under the LAST assignment
(metadata first, then cells in order) — lookup in the reversed assignment
sequence.  Concretely, with both headers equal to `type`, each record
keeps only the last cell's value under `type` (the metadata tag and the
first cell are silently overwritten), and each record has 3 columns even
though 5 assignments (3 metadata + 2 cells) were made. -/
theorem extract_tables_duplicate_column_overwrites :
    (∀ (table_idx row_idx : Nat) (headers : List String) (cells : List Node)
        (k : String),
       getVal (row_record table_idx row_idx headers cells) k
       = getVal (rowAssignments table_idx row_idx headers cells).reverse k)
    ∧ extract_tables dupHeaderDoc
      = [[("type", JSON.str "type"), ("table_index", JSON.num 0),
          ("row_index", JSON.num 0)],
         [("type", JSON.str "y"), ("table_index", JSON.num 0),
          ("row_index", JSON.num 1)]]
    ∧ (extract_tables dupHeaderDoc).map List.length = [3, 3] :=
  ⟨row_record_lookup, rfl, rfl⟩

/-- The claim's reading of one tag group of text extraction: walk ALL
elements of the group with a counter that advances on every element —
including elements skipped by the emission condition — and emit a record
carrying the current counter value for each element that qualifies. -/
def groupRecords (tag : String) (keep : String → Prop) [DecidablePred keep] :
    Nat → List Node → List Rec
  | _, [] => []
  | i, n :: rest =>
    (if keep (get_text n) then [textRec i (get_text n) tag] else [])
      ++ groupRecords tag keep (i + 1) rest

/-- `extract_text` as the claim words it: paragraphs share one
document-wide counter; each heading level `h1..h6` has its own counter
restarting at 0; divs share one counter with the 50-character threshold;
skipped elements still consume counter values. -/
def extract_text_claim (soup : Node) : List Rec :=
  groupRecords "p" (fun s => s ≠ "") 0 (findAllN (fun t => t = "p") soup)
  ++ (["h1", "h2", "h3", "h4", "h5", "h6"].flatMap (fun heading_tag =>
      groupRecords heading_tag (fun s => s ≠ "") 0
        (findAllN (fun t => t = heading_tag) soup)))
  ++ groupRecords "div" (fun s => s ≠ "" ∧ s.length > 50) 0
      (findAllN (fun t => t = "div") soup)

theorem pyEnum_filterMap_eq_groupRecords (tag : String) (keep : String → Prop)
    [DecidablePred keep] :
    ∀ (l : List Node) (start : Nat),
    (pyEnum start l).filterMap
      (fun ip =>
        if keep (get_text ip.2) then some (textRec ip.1 (get_text ip.2) tag)
        else none)
    = groupRecords tag keep start l := by
  intro l
  induction l with
  | nil => intro start; rfl
  | cons n t ih =>
    intro start
    simp only [pyEnum, List.filterMap_cons]
    by_cases h : keep (get_text n)
    · rw [if_pos h]
      show textRec start (get_text n) tag
          :: (pyEnum (start + 1) t).filterMap _
        = groupRecords tag keep start (n :: t)
      rw [ih (start + 1)]
      show _ = (if keep (get_text n) then [textRec start (get_text n) tag]
          else []) ++ groupRecords tag keep (start + 1) t
      rw [if_pos h]
      rfl
    · rw [if_neg h]
      show (pyEnum (start + 1) t).filterMap _
        = groupRecords tag keep start (n :: t)
      rw [ih (start + 1)]
      show _ = (if keep (get_text n) then [textRec start (get_text n) tag]
          else []) ++ groupRecords tag keep (start + 1) t
      rw [if_neg h]
      rfl

/-- A document exercising every indexing rule of text extraction: an empty
paragraph before a real one, an `h1` before an `h2`, and a short div
before a long one. -/
def textDemoDoc : Node :=
  Node.elem "[document]"
    [Node.elem "p" [], Node.elem "p" [Node.text "hello"],
     Node.elem "h1" [Node.text "A"], Node.elem "h2" [Node.text "B"],
     Node.elem "div" [Node.text "short"],
     Node.elem "div"
       [Node.text "this div has substantially more than fifty characters of text"]]

/-- C10: a text record's `index` is the element's 0-based position among
ALL elements of its tag group (skipped elements included), each heading
level carrying its own independent counter while paragraphs and divs each
use one document-wide counter — `extract_text` coincides with the
counter-walk formulation on every document.  On the demo document the
surviving paragraph has index 1 (the skipped empty paragraph consumed 0),
the `h2` restarts at index 0 despite the preceding `h1` record, and the
long div has index 1 (the short div consumed 0). -/
theorem extract_text_index_semantics :
    (∀ d : Node, extract_text d = extract_text_claim d)
    ∧ extract_text textDemoDoc
      = [textRec 1 "hello" "p", textRec 0 "A" "h1", textRec 0 "B" "h2",
         textRec 1
           "this div has substantially more than fifty characters of text"
           "div"] := by
  constructor
  · intro d
    unfold extract_text extract_text_claim
    rw [pyEnum_filterMap_eq_groupRecords "p" (fun s => s ≠ "")
        (findAllN (fun t => t = "p") d) 0,
      pyEnum_filterMap_eq_groupRecords "div" (fun s => s ≠ "" ∧ s.length > 50)
        (findAllN (fun t => t = "div") d) 0]
    simp only [List.flatMap_cons, List.flatMap_nil]
    rw [pyEnum_filterMap_eq_groupRecords "h1" (fun s => s ≠ "")
        (findAllN (fun t => t = "h1") d) 0,
      pyEnum_filterMap_eq_groupRecords "h2" (fun s => s ≠ "")
        (findAllN (fun t => t = "h2") d) 0,
      pyEnum_filterMap_eq_groupRecords "h3" (fun s => s ≠ "")
        (findAllN (fun t => t = "h3") d) 0,
      pyEnum_filterMap_eq_groupRecords "h4" (fun s => s ≠ "")
        (findAllN (fun t => t = "h4") d) 0,
      pyEnum_filterMap_eq_groupRecords "h5" (fun s => s ≠ "")
        (findAllN (fun t => t = "h5") d) 0,
      pyEnum_filterMap_eq_groupRecords "h6" (fun s => s ≠ "")
        (findAllN (fun t => t = "h6") d) 0]
  · rfl
